import Mathlib

/-!
Verification of the Intercom review-invitation pipeline.

The definitions below are a shallow embedding of the pipeline implemented in
`server/routes.ts` (the `processInvitationWithRetry` dispatch state machine)
and the `/api/notifications/intercom` webhook handler (dedup, record creation,
asynchronous dispatch start).  The LogStore is modelled as a list of records;
`update` applies a partial patch (fields absent from the patch are preserved),
matching the `update(conversationId, patch)` CRUD contract.  Side effects
(sender invocations, log writes, counter increments, audit-log calls and
scheduled retries) are recorded in an explicit effect trace so that ordering
and counting properties can be stated.
-/

namespace Intercom

/-- Status of an invitation record: 'processing' | 'retrying' | 'success' | 'failed'. -/
inductive InvStatus
  | processing
  | retrying
  | success
  | failed
deriving DecidableEq, Repr

/-- The audit/state entity persisted per conversation (InvitationRecord). -/
structure InvitationRecord where
  conversationId : String
  customerEmail : String
  customerName : String
  agentName : String
  status : InvStatus
  retryCount : Nat
  errorMessage : Option String
  responseLog : Option String
deriving DecidableEq, Repr

/-- A partial update passed to `storage.updateInvitationLog`.  A `none` field
is absent from the patch and leaves the stored value unchanged. -/
structure RecordPatch where
  status : Option InvStatus := none
  retryCount : Option Nat := none
  errorMessage : Option String := none
  responseLog : Option String := none
deriving DecidableEq, Repr

/-- Merge a patch into a record: present fields overwrite, absent fields keep
the stored value. -/
def applyPatch (r : InvitationRecord) (p : RecordPatch) : InvitationRecord :=
  { r with
    status := p.status.getD r.status
    retryCount := p.retryCount.getD r.retryCount
    errorMessage := match p.errorMessage with
      | some m => some m
      | none => r.errorMessage
    responseLog := match p.responseLog with
      | some s => some s
      | none => r.responseLog }

/-- The LogStore, keyed by `conversationId`. -/
abbrev LogStore := List InvitationRecord

/-- Embeds `storage.getInvitationLog(conversationId)`. -/
def getInvitationLog (store : LogStore) (conversationId : String) :
    Option InvitationRecord :=
  store.find? (fun r => r.conversationId == conversationId)

/-- Embeds `storage.createInvitationLog(record)`. -/
def createInvitationLog (store : LogStore) (r : InvitationRecord) : LogStore :=
  store ++ [r]

/-- Embeds `storage.updateInvitationLog(conversationId, patch)`. -/
def updateInvitationLog (store : LogStore) (conversationId : String)
    (p : RecordPatch) : LogStore :=
  store.map (fun r => if r.conversationId == conversationId then applyPatch r p else r)

/-- The success/failure counters (`storage.getSystemStats`). -/
structure SystemStats where
  successCount : Nat
  failedCount : Nat
deriving DecidableEq, Repr

/-- Which counter `storage.incrementInviteCount` bumps. -/
inductive CountKind
  | success
  | failed
deriving DecidableEq, Repr

/-- Embeds `storage.incrementInviteCount`, taking 'success' or 'failed'. -/
def incrementInviteCount (stats : SystemStats) : CountKind → SystemStats
  | .success => { stats with successCount := stats.successCount + 1 }
  | .failed => { stats with failedCount := stats.failedCount + 1 }

/-- Result of `emailService.sendReviewInvitation`. -/
structure SendResult where
  success : Bool
  error : Option String
deriving DecidableEq, Repr

/-- The retry delay table `RETRY_DELAYS = [5000, 10000, 20000]` (milliseconds). -/
def RETRY_DELAYS : List Nat := [5000, 10000, 20000]

/-- The retry bound `MAX_RETRIES = 3`. -/
def MAX_RETRIES : Nat := 3

/-- Models `JSON.stringify(result)` as a deterministic serialization. -/
def serializeResult (r : SendResult) : String :=
  (if r.success then "success=true" else "success=false") ++
    (match r.error with
     | some e => ",error=" ++ e
     | none => "")

/-- The message of the error thrown on a failed send:
`result.error || 'Failed to send invitation'`. -/
def errMsg (r : SendResult) : String :=
  r.error.getD "Failed to send invitation"

/-- Patch written on a successful send. -/
def successPatch (result : SendResult) : RecordPatch :=
  { status := some .success, responseLog := some (serializeResult result) }

/-- Patch written when a failed attempt still has retries left. -/
def retryPatch (result : SendResult) (retryCount : Nat) : RecordPatch :=
  { status := some .retrying, retryCount := some (retryCount + 1),
    errorMessage := some (errMsg result) }

/-- Patch written when retries are exhausted. -/
def failedPatch (result : SendResult) : RecordPatch :=
  { status := some .failed, errorMessage := some (errMsg result) }

/-- Observable side effects of the dispatch state machine, in program order. -/
inductive Effect
  | sendAttempt (retryCount : Nat)
  | logWrite (snapshot : Option InvitationRecord)
  | counterIncr (kind : CountKind)
  | auditLog (r : InvitationRecord)
  | scheduleRetry (delayMs : Nat)
deriving DecidableEq, Repr

/-- Embeds `processInvitationWithRetry(conversationId, email, name, agentName, retryCount)`.
The email service is abstracted as `sender`, mapping the `retryCount` of an
attempt to that attempt's `SendResult`.  The returned trace lists the side
effects in the order the code performs them; the scheduled retry's own
effects follow its `scheduleRetry` entry, matching the serialized execution
of the `setTimeout` continuation. -/
def processInvitationWithRetry (sender : Nat → SendResult) (conversationId : String)
    (store : LogStore) (stats : SystemStats) (retryCount : Nat) :
    LogStore × SystemStats × List Effect :=
  let result := sender retryCount
  if result.success then
    let store1 := updateInvitationLog store conversationId (successPatch result)
    let stats1 := incrementInviteCount stats .success
    let audit : List Effect :=
      match getInvitationLog store1 conversationId with
      | some r => [.auditLog r]
      | none => []
    (store1, stats1,
      [.sendAttempt retryCount, .logWrite (getInvitationLog store1 conversationId),
        .counterIncr .success] ++ audit)
  else if h : retryCount < MAX_RETRIES then
    let store1 := updateInvitationLog store conversationId (retryPatch result retryCount)
    let delayMs := RETRY_DELAYS.getD retryCount 0
    let rest := processInvitationWithRetry sender conversationId store1 stats (retryCount + 1)
    (rest.1, rest.2.1,
      .sendAttempt retryCount :: .logWrite (getInvitationLog store1 conversationId) ::
        .scheduleRetry delayMs :: rest.2.2)
  else
    let store1 := updateInvitationLog store conversationId (failedPatch result)
    let stats1 := incrementInviteCount stats .failed
    let audit : List Effect :=
      match getInvitationLog store1 conversationId with
      | some r => [.auditLog r]
      | none => []
    (store1, stats1,
      [.sendAttempt retryCount, .logWrite (getInvitationLog store1 conversationId),
        .counterIncr .failed] ++ audit)
termination_by MAX_RETRIES - retryCount
decreasing_by simp only [MAX_RETRIES] at *; omega

/-- A fresh record as created by the webhook handler on first acceptance. -/
def freshRecord (conversationId email name agentName : String) : InvitationRecord :=
  { conversationId := conversationId
    customerEmail := email
    customerName := name
    agentName := agentName
    status := .processing
    retryCount := 0
    errorMessage := none
    responseLog := none }

set_option linter.unusedVariables false in
/-- The Trustpilot review link template built inside `processInvitationWithRetry`:
only the configured domain is interpolated into the URL; the business name,
though in scope at the template site, does not occur in it. -/
def mkReviewLink (businessName trustpilotDomain : String) : String :=
  "https://www.trustpilot.com/evaluate/" ++ trustpilotDomain ++
    "?utm_source=email&utm_medium=invitation&utm_campaign=intercom_automation"

/-! ### The `/api/notifications/intercom` ingestion handler -/

/-- A contact reference carried on the event (`conversation.contacts.contacts[i]`). -/
structure ContactRef where
  id : String
deriving DecidableEq, Repr

/-- Profile returned by `fetchContactDetails` (the ContactLookup collaborator). -/
structure ContactProfile where
  email : Option String
  name : Option String
deriving DecidableEq, Repr

/-- One entry of `conversation.conversation_parts.conversation_parts`. -/
structure ConvPart where
  authorName : Option String
deriving DecidableEq, Repr

/-- The `data.item` payload of a webhook event. -/
structure ConvItem where
  id : String
  contacts : List ContactRef
  conversationParts : List ConvPart
deriving DecidableEq, Repr

/-- An inbound webhook request, after transport: either the body fails
`JSON.parse`/schema validation (`malformed`), or it parses but carries no
`type` (the verification handshake), or it is a structurally valid event. -/
inductive WebhookRequest
  | malformed
  | noType
  | valid (eventType : String) (item : ConvItem)
deriving DecidableEq, Repr

/-- Which branch of the handler produced the acknowledgement. -/
inductive AckKind
  | verification
  | parseError
  | duplicate
  | noContacts
  | noEmail
  | processed
  | ignored
deriving DecidableEq, Repr

/-- The HTTP acknowledgement sent back to the event source. -/
structure AckResponse where
  statusCode : Nat
  kind : AckKind
deriving DecidableEq, Repr

/-- JavaScript `x || d` on an optional string: `null`/`undefined` and the
empty string are falsy and select the default. -/
def jsOr (s : Option String) (d : String) : String :=
  match s with
  | some v => if v == "" then d else v
  | none => d

/-- Embeds `type === 'conversation.admin.closed' || type === 'conversation.closed'`. -/
def isCloseEvent (eventType : String) : Bool :=
  eventType == "conversation.admin.closed" || eventType == "conversation.closed"

/-- The `POST /api/notifications/intercom` handler: dedup on `conversationId`,
contact lookup, record creation and asynchronous dispatch start.  Returns the
acknowledgement, the updated store, and whether a dispatch chain was started
(`processInvitationWithRetry` invoked). -/
def handleNotification (lookup : String → Option ContactProfile)
    (store : LogStore) (req : WebhookRequest) : AckResponse × LogStore × Bool :=
  match req with
  | .malformed => (⟨200, .parseError⟩, store, false)
  | .noType => (⟨200, .verification⟩, store, false)
  | .valid eventType item =>
    if isCloseEvent eventType then
      match getInvitationLog store item.id with
      | some _ => (⟨200, .duplicate⟩, store, false)
      | none =>
        match item.contacts with
        | [] => (⟨200, .noContacts⟩, store, false)
        | contact :: _ =>
          match lookup contact.id with
          | none => (⟨200, .noEmail⟩, store, false)
          | some profile =>
            match profile.email with
            | none => (⟨200, .noEmail⟩, store, false)
            | some email =>
              if email == "" then (⟨200, .noEmail⟩, store, false)
              else
                let name := jsOr profile.name "Valued Customer"
                let agentName :=
                  jsOr (item.conversationParts.getLast?.bind ConvPart.authorName)
                    "Our Support Team"
                (⟨200, .processed⟩,
                  createInvitationLog store (freshRecord item.id email name agentName),
                  true)
    else
      (⟨200, .ignored⟩, store, false)

/-- Sequential processing of a list of inbound events; also counts how many
dispatch chains were started. -/
def processEvents (lookup : String → Option ContactProfile)
    (store : LogStore) (reqs : List WebhookRequest) : LogStore × Nat :=
  match reqs with
  | [] => (store, 0)
  | req :: rest =>
    let out := handleNotification lookup store req
    let next := processEvents lookup out.2.1 rest
    (next.1, (if out.2.2 then 1 else 0) + next.2)

/-- The parse-only `POST /api/webhook/intercom` handler of `server/routes.ts`:
it parses the raw body and answers 200 in both the success and the catch
branch, never touching the store. -/
def handleWebhookParse (parseOk : Bool) : AckResponse :=
  if parseOk then ⟨200, .processed⟩ else ⟨200, .parseError⟩

/-! ### Trace extractors -/

/-- Delays handed to the RetryScheduler (`setTimeout`), in order. -/
def scheduledDelays : List Effect → List Nat
  | [] => []
  | .scheduleRetry d :: rest => d :: scheduledDelays rest
  | _ :: rest => scheduledDelays rest

/-- Counter increments, in order. -/
def counterEvents : List Effect → List CountKind
  | [] => []
  | .counterIncr k :: rest => k :: counterEvents rest
  | _ :: rest => counterEvents rest

/-- The `retryCount` argument of each sender invocation, in order. -/
def sendAttempts : List Effect → List Nat
  | [] => []
  | .sendAttempt k :: rest => k :: sendAttempts rest
  | _ :: rest => sendAttempts rest

/-- The record states written to the LogStore, in order. -/
def writeSnapshots : List Effect → List InvitationRecord
  | [] => []
  | .logWrite (some r) :: rest => r :: writeSnapshots rest
  | _ :: rest => writeSnapshots rest

theorem scheduledDelays_append (l1 l2 : List Effect) :
    scheduledDelays (l1 ++ l2) = scheduledDelays l1 ++ scheduledDelays l2 := by
  induction l1 with
  | nil => rfl
  | cons e rest ih =>
    cases e <;> simp [scheduledDelays, ih]

theorem counterEvents_append (l1 l2 : List Effect) :
    counterEvents (l1 ++ l2) = counterEvents l1 ++ counterEvents l2 := by
  induction l1 with
  | nil => rfl
  | cons e rest ih =>
    cases e <;> simp [counterEvents, ih]

theorem sendAttempts_append (l1 l2 : List Effect) :
    sendAttempts (l1 ++ l2) = sendAttempts l1 ++ sendAttempts l2 := by
  induction l1 with
  | nil => rfl
  | cons e rest ih =>
    cases e <;> simp [sendAttempts, ih]

theorem writeSnapshots_append (l1 l2 : List Effect) :
    writeSnapshots (l1 ++ l2) = writeSnapshots l1 ++ writeSnapshots l2 := by
  induction l1 with
  | nil => rfl
  | cons e rest ih =>
    cases e with
    | logWrite s => cases s <;> simp [writeSnapshots, ih]
    | _ => simp [writeSnapshots, ih]

/-- Scan of a trace checking that, within each attempt (delimited by
`sendAttempt`), every counter increment and audit-log call is preceded by a
LogStore write.  The flag records whether the current attempt has already
written to the LogStore. -/
def orderedReporting : Bool → List Effect → Bool
  | _, [] => true
  | _, .sendAttempt _ :: rest => orderedReporting false rest
  | _, .logWrite _ :: rest => orderedReporting true rest
  | seen, .counterIncr _ :: rest => seen && orderedReporting seen rest
  | seen, .auditLog _ :: rest => seen && orderedReporting seen rest
  | seen, .scheduleRetry _ :: rest => orderedReporting seen rest

/-- Number of records stored under a given `conversationId`. -/
def countRecords (store : LogStore) (conversationId : String) : Nat :=
  (store.filter (fun r => r.conversationId == conversationId)).length

/-! ### Store lemmas -/

theorem applyPatch_conversationId (r : InvitationRecord) (p : RecordPatch) :
    (applyPatch r p).conversationId = r.conversationId := rfl

theorem updateMap_pred (cid : String) (p : RecordPatch) :
    ((fun r : InvitationRecord => r.conversationId == cid) ∘
      (fun r => if r.conversationId == cid then applyPatch r p else r)) =
      (fun r : InvitationRecord => r.conversationId == cid) := by
  funext r
  by_cases h : r.conversationId == cid <;>
    simp [h, applyPatch_conversationId, Function.comp]

theorem getInvitationLog_update (store : LogStore) (cid : String) (p : RecordPatch) :
    getInvitationLog (updateInvitationLog store cid p) cid =
      (getInvitationLog store cid).map (fun r => applyPatch r p) := by
  unfold getInvitationLog updateInvitationLog
  rw [List.find?_map, updateMap_pred]
  cases hfind : store.find? (fun r => r.conversationId == cid) with
  | none => rfl
  | some r =>
    have hp := List.find?_some hfind
    simp only [Option.map_some']
    rw [if_pos hp]

theorem countRecords_update (store : LogStore) (cid id : String) (p : RecordPatch) :
    countRecords (updateInvitationLog store cid p) id = countRecords store id := by
  unfold countRecords updateInvitationLog
  rw [List.filter_map]
  have hpf : ((fun r : InvitationRecord => r.conversationId == id) ∘
      (fun r => if r.conversationId == cid then applyPatch r p else r)) =
      (fun r : InvitationRecord => r.conversationId == id) := by
    funext r
    by_cases h : r.conversationId == cid <;>
      simp [h, applyPatch_conversationId, Function.comp]
  rw [hpf, List.length_map]

theorem countRecords_create (store : LogStore) (r : InvitationRecord) (id : String) :
    countRecords (createInvitationLog store r) id =
      countRecords store id + (if r.conversationId == id then 1 else 0) := by
  by_cases h : r.conversationId == id <;>
    simp [countRecords, createInvitationLog, List.filter_append, List.filter, h]

theorem getInvitationLog_none_countRecords (store : LogStore) (id : String)
    (h : getInvitationLog store id = none) : countRecords store id = 0 := by
  unfold countRecords
  unfold getInvitationLog at h
  rw [List.find?_eq_none] at h
  rw [List.length_eq_zero, List.filter_eq_nil_iff]
  exact fun a ha => by simpa using h a ha

/-! ### The dispatch state machine: master characterization -/

set_option maxHeartbeats 1000000

theorem chain_run_spec (sender : Nat → SendResult) (cid : String) :
    ∀ (store : LogStore) (stats : SystemStats) (rc : Nat),
    ∀ r0 : InvitationRecord,
    getInvitationLog store cid = some r0 →
    r0.retryCount = rc → rc ≤ MAX_RETRIES →
    ∃ n r' pre,
      rc + n ≤ MAX_RETRIES ∧
      getInvitationLog (processInvitationWithRetry sender cid store stats rc).1 cid = some r' ∧
      r'.retryCount = rc + n ∧
      (r'.status = InvStatus.success ∨ r'.status = InvStatus.failed) ∧
      (r'.status = InvStatus.success → (sender (rc + n)).success = true) ∧
      (r'.status = InvStatus.failed →
        rc + n = MAX_RETRIES ∧ (sender MAX_RETRIES).success = false) ∧
      (∀ k, rc ≤ k → k < rc + n → (sender k).success = false) ∧
      r'.errorMessage = (if r'.status = InvStatus.failed then some (errMsg (sender MAX_RETRIES))
        else if n = 0 then r0.errorMessage else some (errMsg (sender (rc + n - 1)))) ∧
      (writeSnapshots (processInvitationWithRetry sender cid store stats rc).2.2).map
          (fun r => (r.status, r.retryCount)) =
        (List.range' (rc + 1) n).map (fun c => (InvStatus.retrying, c)) ++
          [(r'.status, rc + n)] ∧
      scheduledDelays (processInvitationWithRetry sender cid store stats rc).2.2 =
        (List.range' rc n).map (fun i => RETRY_DELAYS.getD i 0) ∧
      (processInvitationWithRetry sender cid store stats rc).2.2 =
        pre ++ [Effect.sendAttempt (rc + n), Effect.logWrite (some r'),
          Effect.counterIncr (if r'.status = InvStatus.success then CountKind.success
            else CountKind.failed),
          Effect.auditLog r'] ∧
      counterEvents pre = [] ∧
      (∀ r ∈ writeSnapshots pre, r.status = InvStatus.retrying) ∧
      (processInvitationWithRetry sender cid store stats rc).2.1 =
        incrementInviteCount stats (if r'.status = InvStatus.success then CountKind.success
          else CountKind.failed) := by
  intro store stats rc
  induction store, stats, rc using processInvitationWithRetry.induct sender cid with
  | case1 store stats rc result hres =>
    intro r0 hget hrc hle
    have hres' : (sender rc).success = true := hres
    have hup := getInvitationLog_update store cid (successPatch (sender rc))
    rw [hget, Option.map_some'] at hup
    rw [processInvitationWithRetry, if_pos hres']
    refine ⟨0, applyPatch r0 (successPatch (sender rc)), [], ?_, ?_, ?_, ?_, ?_, ?_, ?_, ?_,
      ?_, ?_, ?_, ?_, ?_, ?_⟩
    · omega
    · exact hup
    · simp [applyPatch, successPatch, hrc]
    · simp [applyPatch, successPatch]
    · simpa [applyPatch, successPatch] using hres'
    · simp [applyPatch, successPatch]
    · omega
    · simp [applyPatch, successPatch]
    · simp only [hup]
      simp [writeSnapshots, applyPatch, successPatch, hrc]
    · simp only [hup]
      simp [scheduledDelays]
    · simp only [hup]
      simp [applyPatch, successPatch]
    · rfl
    · simp [writeSnapshots]
    · simp [applyPatch, successPatch]
  | case2 store stats rc result hres hlt store1 ih =>
    intro r0 hget hrc hle
    have hres2 : ¬(sender rc).success = true := hres
    have hres' : (sender rc).success = false := by simpa using hres2
    have hlt' : rc < MAX_RETRIES := hlt
    have hup := getInvitationLog_update store cid (retryPatch (sender rc) rc)
    rw [hget, Option.map_some'] at hup
    have hs1 : store1 = updateInvitationLog store cid (retryPatch (sender rc) rc) := rfl
    obtain ⟨n, r', pre, H1, H2, H3, H4, H5, H6, H7, H8, H9, H10, H11, H12, H13, H14⟩ :=
      ih (applyPatch r0 (retryPatch (sender rc) rc)) (by rw [hs1]; exact hup)
        (by simp [applyPatch, retryPatch]) (by omega)
    rw [hs1] at H2 H9 H10 H11 H14
    rw [processInvitationWithRetry, if_neg hres2, dif_pos hlt']
    refine ⟨n + 1, r',
      Effect.sendAttempt rc :: Effect.logWrite (some (applyPatch r0 (retryPatch (sender rc) rc))) ::
        Effect.scheduleRetry (RETRY_DELAYS.getD rc 0) :: pre,
      ?_, ?_, ?_, ?_, ?_, ?_, ?_, ?_, ?_, ?_, ?_, ?_, ?_, ?_⟩
    · omega
    · exact H2
    · rw [H3]; ring
    · exact H4
    · have harith : rc + (n + 1) = rc + 1 + n := by ring
      rw [harith]; exact H5
    · intro hf
      obtain ⟨h6a, h6b⟩ := H6 hf
      exact ⟨by omega, h6b⟩
    · intro k hk1 hk2
      rcases Nat.eq_or_lt_of_le hk1 with heq | hlt2
      · rw [← heq]; exact hres'
      · exact H7 k hlt2 (by omega)
    · rw [H8]
      by_cases hf : r'.status = InvStatus.failed
      · simp [hf]
      · simp only [hf, if_false]
        by_cases hn : n = 0
        · subst hn
          simp [applyPatch, retryPatch]
        · have harith : rc + 1 + n - 1 = rc + (n + 1) - 1 := by omega
          simp [hn, harith]
    · simp only [hup]
      have harith : rc + (n + 1) = rc + 1 + n := by ring
      rw [harith]
      simp only [writeSnapshots, List.map_cons, List.range'_succ, List.cons_append]
      rw [H9]
      simp [applyPatch, retryPatch]
    · simp only [hup]
      simp only [scheduledDelays, List.range'_succ, List.map_cons]
      rw [H10]
    · simp only [hup, List.cons_append]
      have harith : rc + (n + 1) = rc + 1 + n := by ring
      rw [harith, H11]
    · simp only [counterEvents]
      exact H12
    · simp only [writeSnapshots]
      intro r hr
      rcases List.mem_cons.mp hr with heq | hmem
      · subst heq; simp [applyPatch, retryPatch]
      · exact H13 r hmem
    · exact H14
  | case3 store stats rc result hres hnlt =>
    intro r0 hget hrc hle
    have hres2 : ¬(sender rc).success = true := hres
    have hres' : (sender rc).success = false := by simpa using hres2
    have hrc3 : rc = MAX_RETRIES := by
      simp only [MAX_RETRIES] at hle hnlt ⊢
      omega
    have hup := getInvitationLog_update store cid (failedPatch (sender rc))
    rw [hget, Option.map_some'] at hup
    rw [processInvitationWithRetry, if_neg hres2, dif_neg hnlt]
    refine ⟨0, applyPatch r0 (failedPatch (sender rc)), [], ?_, ?_, ?_, ?_, ?_, ?_, ?_, ?_,
      ?_, ?_, ?_, ?_, ?_, ?_⟩
    · omega
    · exact hup
    · simp [applyPatch, failedPatch, hrc]
    · simp [applyPatch, failedPatch]
    · simp [applyPatch, failedPatch]
    · intro _
      refine ⟨by omega, ?_⟩
      rw [← hrc3]; exact hres'
    · omega
    · simp only [applyPatch, failedPatch]
      simp [hrc3]
    · simp only [hup]
      simp [writeSnapshots, applyPatch, failedPatch, hrc]
    · simp only [hup]
      simp [scheduledDelays]
    · simp only [hup]
      simp [applyPatch, failedPatch]
    · rfl
    · simp [writeSnapshots]
    · simp [applyPatch, failedPatch]

/-! ### Chain corollary lemmas -/

theorem getInvitationLog_fresh (cid email name agent : String) :
    getInvitationLog (createInvitationLog [] (freshRecord cid email name agent)) cid =
      some (freshRecord cid email name agent) := by
  simp [getInvitationLog, createInvitationLog, freshRecord, List.find?]

theorem orderedReporting_of_false (l : List Effect) :
    ∀ s, orderedReporting false l = true → orderedReporting s l = true := by
  induction l with
  | nil => intro s _; rfl
  | cons e rest ih =>
    intro s h
    cases e <;> simp only [orderedReporting] at h ⊢
    · exact h
    · exact h
    · simp at h
    · simp at h
    · exact ih s h

theorem chain_orderedReporting (sender : Nat → SendResult) (cid : String) :
    ∀ (store : LogStore) (stats : SystemStats) (rc : Nat),
    orderedReporting false (processInvitationWithRetry sender cid store stats rc).2.2 = true := by
  intro store stats rc
  induction store, stats, rc using processInvitationWithRetry.induct sender cid with
  | case1 store stats rc result hres =>
    have hres' : (sender rc).success = true := hres
    rw [processInvitationWithRetry, if_pos hres']
    cases hg : getInvitationLog (updateInvitationLog store cid (successPatch (sender rc))) cid <;>
      simp [hg, orderedReporting]
  | case2 store stats rc result hres hlt store1 ih =>
    have hres2 : ¬(sender rc).success = true := hres
    have hlt' : rc < MAX_RETRIES := hlt
    have hs1 : store1 = updateInvitationLog store cid (retryPatch (sender rc) rc) := rfl
    rw [hs1] at ih
    rw [processInvitationWithRetry, if_neg hres2, dif_pos hlt']
    simp only [orderedReporting]
    exact orderedReporting_of_false _ true ih
  | case3 store stats rc result hres hnlt =>
    have hres2 : ¬(sender rc).success = true := hres
    rw [processInvitationWithRetry, if_neg hres2, dif_neg hnlt]
    cases hg : getInvitationLog (updateInvitationLog store cid (failedPatch (sender rc))) cid <;>
      simp [hg, orderedReporting]

theorem chain_sendAttempts_le (sender : Nat → SendResult) (cid : String) :
    ∀ (store : LogStore) (stats : SystemStats) (rc : Nat), rc ≤ MAX_RETRIES →
    (sendAttempts (processInvitationWithRetry sender cid store stats rc).2.2).length ≤
      MAX_RETRIES + 1 - rc := by
  intro store stats rc
  induction store, stats, rc using processInvitationWithRetry.induct sender cid with
  | case1 store stats rc result hres =>
    intro hle
    have hres' : (sender rc).success = true := hres
    rw [processInvitationWithRetry, if_pos hres']
    cases hg : getInvitationLog (updateInvitationLog store cid (successPatch (sender rc))) cid <;>
      simp [hg, sendAttempts, sendAttempts_append] <;> omega
  | case2 store stats rc result hres hlt store1 ih =>
    intro hle
    have hres2 : ¬(sender rc).success = true := hres
    have hlt' : rc < MAX_RETRIES := hlt
    have hs1 : store1 = updateInvitationLog store cid (retryPatch (sender rc) rc) := rfl
    rw [hs1] at ih
    have hle' : rc + 1 ≤ MAX_RETRIES := hlt'
    have hrec := ih hle'
    rw [processInvitationWithRetry, if_neg hres2, dif_pos hlt']
    simp only [sendAttempts, List.length_cons]
    omega
  | case3 store stats rc result hres hnlt =>
    intro hle
    have hres2 : ¬(sender rc).success = true := hres
    rw [processInvitationWithRetry, if_neg hres2, dif_neg hnlt]
    cases hg : getInvitationLog (updateInvitationLog store cid (failedPatch (sender rc))) cid <;>
      simp [hg, sendAttempts, sendAttempts_append] <;> omega

theorem chain_countRecords (sender : Nat → SendResult) (cid : String) :
    ∀ (store : LogStore) (stats : SystemStats) (rc : Nat) (id : String),
    countRecords (processInvitationWithRetry sender cid store stats rc).1 id =
      countRecords store id := by
  intro store stats rc
  induction store, stats, rc using processInvitationWithRetry.induct sender cid with
  | case1 store stats rc result hres =>
    intro id
    have hres' : (sender rc).success = true := hres
    rw [processInvitationWithRetry, if_pos hres']
    exact countRecords_update _ _ _ _
  | case2 store stats rc result hres hlt store1 ih =>
    intro id
    have hres2 : ¬(sender rc).success = true := hres
    have hlt' : rc < MAX_RETRIES := hlt
    have hs1 : store1 = updateInvitationLog store cid (retryPatch (sender rc) rc) := rfl
    rw [hs1] at ih
    rw [processInvitationWithRetry, if_neg hres2, dif_pos hlt']
    rw [ih id, countRecords_update]
  | case3 store stats rc result hres hnlt =>
    intro id
    have hres2 : ¬(sender rc).success = true := hres
    rw [processInvitationWithRetry, if_neg hres2, dif_neg hnlt]
    exact countRecords_update _ _ _ _

/-! ### Ingestion handler lemmas -/

theorem countRecords_handle (lookup : String → Option ContactProfile)
    (store : LogStore) (req : WebhookRequest) (id : String)
    (h : countRecords store id ≤ 1) :
    countRecords (handleNotification lookup store req).2.1 id ≤ 1 := by
  cases req with
  | malformed => exact h
  | noType => exact h
  | valid t item =>
    simp only [handleNotification]
    split
    · split
      · exact h
      · split
        · exact h
        · split
          · exact h
          · split
            · exact h
            · split
              · exact h
              · rw [countRecords_create]
                have hget : getInvitationLog store item.id = none := by assumption
                by_cases hid : item.id == id
                · have hid' : item.id = id := by simpa using hid
                  subst hid'
                  have h0 := getInvitationLog_none_countRecords store item.id hget
                  simp [freshRecord, h0]
                · simp [freshRecord, hid, h]
    · exact h

theorem processEvents_count (lookup : String → Option ContactProfile)
    (reqs : List WebhookRequest) :
    ∀ store : LogStore, (∀ id, countRecords store id ≤ 1) →
    ∀ id, countRecords (processEvents lookup store reqs).1 id ≤ 1 := by
  induction reqs with
  | nil => intro store h id; exact h id
  | cons req rest ih =>
    intro store h id
    simp only [processEvents]
    exact ih _ (fun j => countRecords_handle lookup store req j (h j)) id

/-! ### Claim theorems -/

theorem map_pair_fst (s n : Nat) :
    ((List.range' s n).map (fun c => (InvStatus.retrying, c))).map Prod.fst =
      List.replicate n InvStatus.retrying := by
  induction n generalizing s with
  | zero => rfl
  | succ m ih => simp [List.range'_succ, List.replicate_succ, ih]

/-- C1: after the first accepted close event for a conversation, replaying any
event with the same conversationId creates no record, mutates nothing and
starts no dispatch; at most one record ever exists per conversationId, and the
dispatch chain itself never creates records. -/
theorem dedupCreatesAtMostOneRecord (lookup : String → Option ContactProfile) :
    (∀ (reqs : List WebhookRequest) (id : String),
      countRecords (processEvents lookup [] reqs).1 id ≤ 1) ∧
    (∀ (store : LogStore) (t : String) (item : ConvItem) (r : InvitationRecord),
      getInvitationLog store item.id = some r → isCloseEvent t = true →
      handleNotification lookup store (.valid t item) =
        (⟨200, .duplicate⟩, store, false)) ∧
    (∀ (sender : Nat → SendResult) (cid : String) (store : LogStore)
      (stats : SystemStats) (rc : Nat) (id : String),
      countRecords (processInvitationWithRetry sender cid store stats rc).1 id =
        countRecords store id) := by
  refine ⟨?_, ?_, ?_⟩
  · intro reqs id
    exact processEvents_count lookup reqs [] (fun j => by simp [countRecords]) id
  · intro store t item r hget hclose
    simp [handleNotification, hclose, hget]
  · intro sender cid store stats rc id
    exact chain_countRecords sender cid store stats rc id

theorem dedupCreatesAtMostOneRecord_witness :
    handleNotification (fun _ => none)
        (createInvitationLog [] (freshRecord "c1" "e@x.com" "Alice" "Agent"))
        (.valid "conversation.closed" ⟨"c1", [], []⟩) =
      (⟨200, .duplicate⟩,
        createInvitationLog [] (freshRecord "c1" "e@x.com" "Alice" "Agent"), false) :=
  (dedupCreatesAtMostOneRecord (fun _ => none)).2.1 _ "conversation.closed" ⟨"c1", [], []⟩
    (freshRecord "c1" "e@x.com" "Alice" "Agent") (getInvitationLog_fresh _ _ _ _) rfl

/-- C2: every reachable record state of a dispatch chain started on a fresh
record has retryCount ≤ MAX_RETRIES, and a FAILED state has retryCount =
MAX_RETRIES with the most recent (4th) send attempt failed. -/
theorem retryCountNeverExceedsMax (sender : Nat → SendResult)
    (cid email name agent : String) (stats : SystemStats) (r : InvitationRecord)
    (hmem : r ∈ freshRecord cid email name agent ::
      writeSnapshots (processInvitationWithRetry sender cid
        (createInvitationLog [] (freshRecord cid email name agent)) stats 0).2.2) :
    r.retryCount ≤ MAX_RETRIES ∧
    (r.status = InvStatus.failed →
      r.retryCount = MAX_RETRIES ∧ (sender MAX_RETRIES).success = false) := by
  obtain ⟨n, r', pre, H1, H2, H3, H4, H5, H6, H7, H8, H9, H10, H11, H12, H13, H14⟩ :=
    chain_run_spec sender cid _ stats 0 (freshRecord cid email name agent)
      (getInvitationLog_fresh cid email name agent) rfl (by simp [MAX_RETRIES])
  rcases List.mem_cons.mp hmem with heq | hmem'
  · subst heq
    refine ⟨by simp [freshRecord, MAX_RETRIES], ?_⟩
    intro hf
    simp [freshRecord] at hf
  · have hpair : (r.status, r.retryCount) ∈
        (List.range' (0 + 1) n).map (fun c => (InvStatus.retrying, c)) ++
          [(r'.status, 0 + n)] := by
      rw [← H9]
      exact List.mem_map_of_mem _ hmem'
    rcases List.mem_append.mp hpair with hin | hlast
    · obtain ⟨c, hc, hceq⟩ := List.mem_map.mp hin
      have hs : r.status = InvStatus.retrying := by
        have := congrArg Prod.fst hceq
        simpa using this.symm
      have hrc : r.retryCount = c := by
        have := congrArg Prod.snd hceq
        simpa using this.symm
      have hcb := List.mem_range'_1.mp hc
      constructor
      · rw [hrc]
        simp only [MAX_RETRIES] at H1 ⊢
        omega
      · intro hf
        rw [hs] at hf
        exact absurd hf (by simp)
    · have hpe : (r.status, r.retryCount) = (r'.status, 0 + n) := by simpa using hlast
      have hs : r.status = r'.status := congrArg Prod.fst hpe
      have hrc : r.retryCount = 0 + n := congrArg Prod.snd hpe
      constructor
      · rw [hrc]; exact H1
      · intro hf
        have hf' : r'.status = InvStatus.failed := by rw [← hs]; exact hf
        obtain ⟨ha, hb⟩ := H6 hf'
        exact ⟨by rw [hrc]; exact ha, hb⟩

theorem retryCountNeverExceedsMax_witness :
    (freshRecord "c1" "e@x.com" "Alice" "Agent").retryCount ≤ MAX_RETRIES ∧
    ((freshRecord "c1" "e@x.com" "Alice" "Agent").status = InvStatus.failed →
      (freshRecord "c1" "e@x.com" "Alice" "Agent").retryCount = MAX_RETRIES ∧
      ((fun _ => (⟨false, none⟩ : SendResult)) MAX_RETRIES).success = false) :=
  retryCountNeverExceedsMax (fun _ => ⟨false, none⟩) "c1" "e@x.com" "Alice" "Agent"
    ⟨0, 0⟩ _ (List.mem_cons_self _ _)


/-- C3: if the sender fails on every attempt of the chain (there is never a
4th retry: exactly three retries are scheduled), the record ends FAILED with
retryCount 3, the failure counter increases by exactly 1, the success counter
is unchanged, and the scheduled delays are exactly [5000, 10000, 20000] ms. -/
theorem exhaustedRetriesFailure (sender : Nat → SendResult)
    (cid email name agent : String) (stats : SystemStats)
    (hfail : ∀ k, k ≤ MAX_RETRIES → (sender k).success = false) :
    ∃ r', getInvitationLog (processInvitationWithRetry sender cid
        (createInvitationLog [] (freshRecord cid email name agent)) stats 0).1 cid =
        some r' ∧
      r'.status = InvStatus.failed ∧ r'.retryCount = MAX_RETRIES ∧
      (processInvitationWithRetry sender cid
        (createInvitationLog [] (freshRecord cid email name agent)) stats 0).2.1.failedCount =
        stats.failedCount + 1 ∧
      (processInvitationWithRetry sender cid
        (createInvitationLog [] (freshRecord cid email name agent)) stats 0).2.1.successCount =
        stats.successCount ∧
      scheduledDelays (processInvitationWithRetry sender cid
        (createInvitationLog [] (freshRecord cid email name agent)) stats 0).2.2 =
        [5000, 10000, 20000] := by
  obtain ⟨n, r', pre, H1, H2, H3, H4, H5, H6, H7, H8, H9, H10, H11, H12, H13, H14⟩ :=
    chain_run_spec sender cid _ stats 0 (freshRecord cid email name agent)
      (getInvitationLog_fresh cid email name agent) rfl (by simp [MAX_RETRIES])
  have hnotsucc : r'.status ≠ InvStatus.success := by
    intro hs
    have htrue := H5 hs
    have hfalse := hfail (0 + n) H1
    rw [htrue] at hfalse
    simp at hfalse
  have hfailst : r'.status = InvStatus.failed := H4.resolve_left hnotsucc
  obtain ⟨hn3, _⟩ := H6 hfailst
  refine ⟨r', H2, hfailst, by rw [H3]; exact hn3, ?_, ?_, ?_⟩
  · rw [H14]
    simp [hfailst, incrementInviteCount]
  · rw [H14]
    simp [hfailst, incrementInviteCount]
  · rw [H10]
    have hn : n = 3 := by
      simp only [MAX_RETRIES] at hn3
      omega
    subst hn
    rfl

theorem exhaustedRetriesFailure_witness :
    ∃ r', getInvitationLog (processInvitationWithRetry (fun _ => ⟨false, some "boom"⟩) "c1"
        (createInvitationLog [] (freshRecord "c1" "e@x.com" "Alice" "Agent")) ⟨0, 0⟩ 0).1 "c1" =
        some r' ∧
      r'.status = InvStatus.failed ∧ r'.retryCount = MAX_RETRIES ∧
      (processInvitationWithRetry (fun _ => ⟨false, some "boom"⟩) "c1"
        (createInvitationLog [] (freshRecord "c1" "e@x.com" "Alice" "Agent"))
        ⟨0, 0⟩ 0).2.1.failedCount = (0 : Nat) + 1 ∧
      (processInvitationWithRetry (fun _ => ⟨false, some "boom"⟩) "c1"
        (createInvitationLog [] (freshRecord "c1" "e@x.com" "Alice" "Agent"))
        ⟨0, 0⟩ 0).2.1.successCount = (0 : Nat) ∧
      scheduledDelays (processInvitationWithRetry (fun _ => ⟨false, some "boom"⟩) "c1"
        (createInvitationLog [] (freshRecord "c1" "e@x.com" "Alice" "Agent")) ⟨0, 0⟩ 0).2.2 =
        [5000, 10000, 20000] :=
  exhaustedRetriesFailure (fun _ => ⟨false, some "boom"⟩) "c1" "e@x.com" "Alice" "Agent"
    ⟨0, 0⟩ (fun _ _ => rfl)

/-- C4: the trace of statuses written by a dispatch chain on a fresh record is
a (possibly empty) run of RETRYING writes followed by exactly one terminal
SUCCESS or FAILED write: transitions are monotonic along
PROCESSING → RETRYING* → {SUCCESS | FAILED}, and nothing follows a terminal
status. -/
theorem statusMonotonic (sender : Nat → SendResult)
    (cid email name agent : String) (stats : SystemStats) :
    ∃ n t, n ≤ MAX_RETRIES ∧ (t = InvStatus.success ∨ t = InvStatus.failed) ∧
      (writeSnapshots (processInvitationWithRetry sender cid
        (createInvitationLog [] (freshRecord cid email name agent)) stats 0).2.2).map
          InvitationRecord.status =
        List.replicate n InvStatus.retrying ++ [t] := by
  obtain ⟨n, r', pre, H1, H2, H3, H4, H5, H6, H7, H8, H9, H10, H11, H12, H13, H14⟩ :=
    chain_run_spec sender cid _ stats 0 (freshRecord cid email name agent)
      (getInvitationLog_fresh cid email name agent) rfl (by simp [MAX_RETRIES])
  refine ⟨n, r'.status, by simpa using H1, H4, ?_⟩
  have hcomp : (writeSnapshots (processInvitationWithRetry sender cid
      (createInvitationLog [] (freshRecord cid email name agent)) stats 0).2.2).map
        InvitationRecord.status =
      ((writeSnapshots (processInvitationWithRetry sender cid
        (createInvitationLog [] (freshRecord cid email name agent)) stats 0).2.2).map
          (fun r => (r.status, r.retryCount))).map Prod.fst := by
    simp [List.map_map]
  rw [hcomp, H9, List.map_append, map_pair_fst]
  rfl

/-- C5: a dispatch chain on a fresh record performs exactly one counter
increment over its whole trace; it happens in the terminal segment, right
after the terminal record is written, matches the terminal status, and no
RETRYING segment contains any counter increment. -/
theorem countersIncrementOnceAtTerminal (sender : Nat → SendResult)
    (cid email name agent : String) (stats : SystemStats) :
    ∃ (k : CountKind) (r' : InvitationRecord) (pre : List Effect) (m : Nat),
      getInvitationLog (processInvitationWithRetry sender cid
        (createInvitationLog [] (freshRecord cid email name agent)) stats 0).1 cid =
        some r' ∧
      ((r'.status = InvStatus.success ∧ k = CountKind.success) ∨
        (r'.status = InvStatus.failed ∧ k = CountKind.failed)) ∧
      counterEvents (processInvitationWithRetry sender cid
        (createInvitationLog [] (freshRecord cid email name agent)) stats 0).2.2 = [k] ∧
      (processInvitationWithRetry sender cid
        (createInvitationLog [] (freshRecord cid email name agent)) stats 0).2.2 =
        pre ++ [Effect.sendAttempt m, Effect.logWrite (some r'),
          Effect.counterIncr k, Effect.auditLog r'] ∧
      counterEvents pre = [] ∧
      (∀ r ∈ writeSnapshots pre, r.status = InvStatus.retrying) ∧
      (processInvitationWithRetry sender cid
        (createInvitationLog [] (freshRecord cid email name agent)) stats 0).2.1 =
        incrementInviteCount stats k := by
  obtain ⟨n, r', pre, H1, H2, H3, H4, H5, H6, H7, H8, H9, H10, H11, H12, H13, H14⟩ :=
    chain_run_spec sender cid _ stats 0 (freshRecord cid email name agent)
      (getInvitationLog_fresh cid email name agent) rfl (by simp [MAX_RETRIES])
  refine ⟨(if r'.status = InvStatus.success then CountKind.success else CountKind.failed),
    r', pre, 0 + n, H2, ?_, ?_, H11, H12, H13, H14⟩
  · rcases H4 with hs | hf
    · exact Or.inl ⟨hs, by simp [hs]⟩
    · refine Or.inr ⟨hf, ?_⟩
      rw [hf]
      simp
  · rw [H11, counterEvents_append, H12]
    simp [counterEvents]

/-- C6: on every transition of the dispatch state machine (success, retry or
terminal failure), the updated record is written to the LogStore before any
counter increment or audit-log call of that same transition. -/
theorem logWriteBeforeReporting (sender : Nat → SendResult) (cid : String)
    (store : LogStore) (stats : SystemStats) (rc : Nat) :
    orderedReporting false (processInvitationWithRetry sender cid store stats rc).2.2 =
      true :=
  chain_orderedReporting sender cid store stats rc

/-- C7: the ingestion endpoint acknowledges every inbound event with HTTP 200
regardless of internal outcome, and a malformed body leaves the store
untouched and starts no dispatch; the parse-only webhook endpoint also
answers 200 on parse failure. -/
theorem ingestionAlwaysAcksSuccess (lookup : String → Option ContactProfile)
    (store : LogStore) :
    (∀ req, (handleNotification lookup store req).1.statusCode = 200) ∧
    handleNotification lookup store .malformed = (⟨200, .parseError⟩, store, false) ∧
    (∀ parseOk, (handleWebhookParse parseOk).statusCode = 200) := by
  refine ⟨?_, rfl, ?_⟩
  · intro req
    cases req with
    | malformed => rfl
    | noType => rfl
    | valid t item =>
      simp only [handleNotification]
      split
      · split
        · rfl
        · split
          · rfl
          · split
            · rfl
            · split
              · rfl
              · split
                · rfl
                · rfl
      · rfl
  · intro parseOk
    cases parseOk <;> rfl


/-- C8 counterexample: the sender fails once (message "boom") and then
succeeds; the record reaches SUCCESS but its errorMessage is still "boom" —
the success patch `{status, responseLog}` does not clear the field. -/
theorem successKeepsErrorMessage_cex :
    (getInvitationLog (processInvitationWithRetry
        (fun k => if k = 0 then ⟨false, some "boom"⟩ else ⟨true, none⟩) "c1"
        (createInvitationLog [] (freshRecord "c1" "e@x.com" "Alice" "Agent"))
        ⟨0, 0⟩ 0).1 "c1").map (fun r => (r.status, r.errorMessage)) =
      some (InvStatus.success, some "boom") := by
  simp [processInvitationWithRetry, createInvitationLog, freshRecord, updateInvitationLog,
    getInvitationLog, applyPatch, retryPatch, successPatch, failedPatch, errMsg,
    serializeResult, MAX_RETRIES, RETRY_DELAYS, incrementInviteCount]

/-- C8 amended: errorMessage is set to the most recent failure's message on
every failed attempt (retry and terminal-failure patches), but no transition
clears it: the success patch leaves it untouched, so a record that reaches
SUCCESS after at least one failure keeps the last failure's message. -/
theorem errorMessageNeverCleared (r : InvitationRecord) (result : SendResult) (rc : Nat)
    (sender : Nat → SendResult) (cid email name agent : String) (stats : SystemStats) :
    (applyPatch r (retryPatch result rc)).errorMessage = some (errMsg result) ∧
    (applyPatch r (failedPatch result)).errorMessage = some (errMsg result) ∧
    (applyPatch r (successPatch result)).errorMessage = r.errorMessage ∧
    (∃ n r', getInvitationLog (processInvitationWithRetry sender cid
        (createInvitationLog [] (freshRecord cid email name agent)) stats 0).1 cid =
        some r' ∧
      r'.errorMessage =
        (if r'.status = InvStatus.failed then some (errMsg (sender MAX_RETRIES))
          else if n = 0 then none else some (errMsg (sender (n - 1))))) := by
  refine ⟨by simp [applyPatch, retryPatch], by simp [applyPatch, failedPatch],
    by simp [applyPatch, successPatch], ?_⟩
  obtain ⟨n, r', pre, H1, H2, H3, H4, H5, H6, H7, H8, H9, H10, H11, H12, H13, H14⟩ :=
    chain_run_spec sender cid _ stats 0 (freshRecord cid email name agent)
      (getInvitationLog_fresh cid email name agent) rfl (by simp [MAX_RETRIES])
  refine ⟨n, r', H2, ?_⟩
  simpa [freshRecord] using H8

/-- C9 counterexample: the rendered review link is identical for two different
business names over the same domain — the URL is not built from the business
name (only the domain is interpolated). -/
theorem reviewLinkIgnoresBusinessName_cex :
    mkReviewLink "Acme" "acme.trustpilot.com" =
      mkReviewLink "SomeOtherBusiness" "acme.trustpilot.com" ∧
    mkReviewLink "Acme" "acme.trustpilot.com" =
      "https://www.trustpilot.com/evaluate/acme.trustpilot.com?utm_source=email&utm_medium=invitation&utm_campaign=intercom_automation" :=
  ⟨rfl, rfl⟩

/-- C9 amended: the review link is a templated URL built from the configured
review-site domain with fixed UTM query parameters; it is deterministic and
independent of the business name, and for domain "acme.trustpilot.com" it
renders exactly the literal URL below on every call. -/
theorem reviewLinkDeterministic (businessName other : String) :
    mkReviewLink businessName "acme.trustpilot.com" =
      "https://www.trustpilot.com/evaluate/acme.trustpilot.com?utm_source=email&utm_medium=invitation&utm_campaign=intercom_automation" ∧
    (∀ domain : String, mkReviewLink businessName domain = mkReviewLink other domain) :=
  ⟨rfl, fun _ => rfl⟩

/-- C10: the retry recursion terminates (the embedding is a total function)
and a dispatch chain started with retryCount = 0 invokes the sender at most
MAX_RETRIES + 1 = 4 times: a retry is only scheduled while
retryCount < MAX_RETRIES and each retry runs with retryCount + 1. -/
theorem retryRecursionBounded (sender : Nat → SendResult) (cid : String)
    (store : LogStore) (stats : SystemStats) :
    (sendAttempts (processInvitationWithRetry sender cid store stats 0).2.2).length ≤
      MAX_RETRIES + 1 := by
  have h := chain_sendAttempts_le sender cid store stats 0 (by simp [MAX_RETRIES])
  simpa using h

end Intercom
